import Mathlib

/-!
Shallow embedding of the pgbulk bulk-load library (sources:
`src/pgbulk.ts` and `src/columnParserTransformer.ts`) together with
theorems settling the frozen specification claims.

Conventions of the embedding:
* A JS object used as a record is a `List (String × _)` in key-insertion
  order; JS object property assignment `obj[k] = v` updates an existing
  entry in place or appends a fresh one (`setEntry`).
* Optional string fields (`csvColumn?`, `ref?`, `castType?`) are
  `Option String`.  Where the source tests such a field with JS
  truthiness (`castType ? _ : _`, `filter(({ref}) => ref)`,
  `csvColumn || databaseColumn`), the empty string counts as absent
  (`jsTruthyStr`); where the source compares with `===`, the comparison
  is exact equality on `Option String`.
* A value read from a JS object at a possibly missing key is
  `Option α` (`none` models `undefined`).
* Stream emission of the column mapper is `Option`: `none` models the
  `return` that drops the row without emitting and without an error.
-/

namespace PgBulk

/-- One column entry of `PGBulkConfig.tables` (pgbulk.ts lines 100-109):
`databaseColumn`, optional `csvColumn`, SQL `type`, optional `ref`,
optional `unnest`, optional `castType`. -/
structure ColumnSpec where
  databaseColumn : String
  csvColumn : Option String := none
  type : String := ""
  ref : Option String := none
  unnest : Bool := false
  castType : Option String := none
deriving DecidableEq, Repr

/-- The `tables` object of the config: table name to ordered column list,
in declaration order (JS object key-insertion order). -/
abbrev Tables := List (String × List ColumnSpec)

/-- The `Index` row type of pgbulk.ts lines 14-18. -/
structure Index where
  name : String
  definition : String
  tableName : String
deriving DecidableEq, Repr

/-- The record produced by `getAllDefinedColumns` (pgbulk.ts lines 511-521)
and by the identical inline construction in `createTemporaryTable`
(lines 312-319). -/
structure DefinedColumn where
  databaseColumn : String
  type : String
  tableName : String
deriving DecidableEq, Repr

/-- JS truthiness of an optional string field: `undefined` and the empty
string are falsy, every other string is truthy. -/
def jsTruthyStr : Option String → Bool
  | none => false
  | some s => s != ""

/-- The matching predicate used both by the direct pass
(columnParserTransformer.ts lines 21-25) and by reference resolution
(lines 41-46): `col.csvColumn === key || (col.csvColumn === undefined &&
col.databaseColumn === key)`. -/
def matchesKey (col : ColumnSpec) (key : String) : Bool :=
  col.csvColumn == some key || (col.csvColumn == none && col.databaseColumn == key)

/-- The staging-column name `` `${tableName}_${databaseColumn}` ``. -/
def stagingKey (tableName databaseColumn : String) : String :=
  tableName ++ "_" ++ databaseColumn

/-- JS object property assignment `rec[k] = v`: overwrite the entry in
place when the key exists, append otherwise. -/
def setEntry (rec : List (String × Option α)) (k : String) (v : Option α) :
    List (String × Option α) :=
  if rec.any (fun p => p.1 == k) then
    rec.map (fun p => if p.1 == k then (k, v) else p)
  else rec ++ [(k, v)]

/-- JS object property read on the built record: `none` when the key was
never assigned, `some v` when it was assigned value `v` (where `v` itself
is `none` for an assigned `undefined`). -/
def getEntry (rec : List (String × Option α)) (k : String) : Option (Option α) :=
  (rec.find? (fun p => p.1 == k)).map Prod.snd

/-- JS object property read on the source row (`row[key]`): `none` models
`undefined` for a missing key. -/
def rowGet (row : List (String × α)) (k : String) : Option α :=
  (row.find? (fun p => p.1 == k)).map Prod.snd

/-- The inner loop of the direct pass (columnParserTransformer.ts lines
20-31): scan tables in declared order, in each table `find` the first
matching `ColumnSpec`, and `break` at the first table that has one. -/
def firstTableMatch (tables : Tables) (key : String) :
    Option (String × ColumnSpec) :=
  tables.findSome? fun tc => (tc.2.find? (fun col => matchesKey col key)).map (fun c => (tc.1, c))

/-- The direct pass (columnParserTransformer.ts lines 17-32): for each
source entry, write `` `${tableName}_${column.databaseColumn}` = value ``
for the first match, or nothing when no table matches. -/
def directPass (tables : Tables) (row : List (String × α)) :
    List (String × Option α) :=
  row.foldl
    (fun acc kv =>
      match firstTableMatch tables kv.1 with
      | some tc => setEntry acc (stagingKey tc.1 tc.2.databaseColumn) (some kv.2)
      | none => acc)
    []

/-- `allColumns` (columnParserTransformer.ts lines 34-36): every
`ColumnSpec` paired with its table name, flattened in declaration order. -/
def allColumns (tables : Tables) : List (String × ColumnSpec) :=
  tables.flatMap fun tc => tc.2.map fun c => (tc.1, c)

/-- `refColumns` (line 38): the columns whose `ref` field is JS-truthy. -/
def refColumns (tables : Tables) : List (String × ColumnSpec) :=
  (allColumns tables).filter fun tc => jsTruthyStr tc.2.ref

/-- Reference resolution (lines 41-46): the first column of `allColumns`
matching the reference name, under the same predicate as the direct pass. -/
def resolveRef (all : List (String × ColumnSpec)) (r : String) :
    Option (String × ColumnSpec) :=
  all.find? fun tc => matchesKey tc.2 r

/-- The effective source key of a referenced column (line 51):
`referencedColumn.csvColumn || referencedColumn.databaseColumn`,
with JS truthiness on `csvColumn`. -/
def effKey (c : ColumnSpec) : String :=
  match c.csvColumn with
  | some s => if s == "" then c.databaseColumn else s
  | none => c.databaseColumn

/-- The reference pass loop (lines 40-52): for each truthy-`ref` column,
resolve the reference over `allColumns`; on failure `return` without
emitting (modelled as `none`); on success write the original row value at
the referenced column's effective source key. -/
def refLoop (all : List (String × ColumnSpec)) (row : List (String × α)) :
    List (String × ColumnSpec) → List (String × Option α) →
    Option (List (String × Option α))
  | [], acc => some acc
  | tc :: rest, acc =>
    match tc.2.ref with
    | none => refLoop all row rest acc
    | some r =>
      match resolveRef all r with
      | none => none
      | some rc =>
        refLoop all row rest
          (setEntry acc (stagingKey tc.1 tc.2.databaseColumn) (rowGet row (effKey rc.2)))

/-- `ColumnParserTransformer._transform` (columnParserTransformer.ts lines
12-55): direct pass, then reference pass; `some rec` is the emitted
staging record, `none` is the silent row drop. -/
def transform (tables : Tables) (row : List (String × α)) :
    Option (List (String × Option α)) :=
  refLoop (allColumns tables) row (refColumns tables) (directPass tables row)

/-- `getAllDefinedTables` (pgbulk.ts lines 531-533): `Object.keys` of the
config tables, in declaration order. -/
def getAllDefinedTables (tables : Tables) : List String :=
  tables.map Prod.fst

/-- `getAllDefinedColumns` (pgbulk.ts lines 511-521): flatMap over
`Object.values` with the JS callback index used to read the table name
out of `Object.keys`. -/
def getAllDefinedColumns (tables : Tables) : List DefinedColumn :=
  ((tables.map Prod.snd).enum).flatMap fun p =>
    p.2.map fun c =>
      ⟨c.databaseColumn, c.type, (tables.map Prod.fst).getD p.1 ""⟩

/-- The column list built inline by `createTemporaryTable` (pgbulk.ts
lines 312-319); the source duplicates the `getAllDefinedColumns` code
verbatim. -/
def createTemporaryTableColumns (tables : Tables) : List DefinedColumn :=
  ((tables.map Prod.snd).enum).flatMap fun p =>
    p.2.map fun c =>
      ⟨c.databaseColumn, c.type, (tables.map Prod.fst).getD p.1 ""⟩

/-- The `CREATE TEMPORARY TABLE` statement (pgbulk.ts lines 321-334). -/
def createTemporaryTableQuery (tables : Tables) (temporaryTableName : String) : String :=
  "CREATE TEMPORARY TABLE \"" ++ temporaryTableName ++ "\" (" ++
    String.intercalate ", "
      ((createTemporaryTableColumns tables).map fun c =>
        "\"" ++ stagingKey c.tableName c.databaseColumn ++ "\" " ++ c.type) ++ ")"

/-- `getTemporaryTableColumns` (pgbulk.ts lines 523-529). -/
def getTemporaryTableColumns (tables : Tables) : List String :=
  (getAllDefinedColumns tables).map fun c => stagingKey c.tableName c.databaseColumn

/-- Double-quoted SQL identifier. -/
def quoteIdent (s : String) : String :=
  "\"" ++ s ++ "\""

/-- `buildCopyQuery` (pgbulk.ts lines 337-351).  The table expression
`getAllDefinedTables()[0]` interpolates to the string "undefined" in JS
when the config has no tables, hence the `getD` default. -/
def buildCopyQuery (usingTemporaryTableStrategy : Bool) (tables : Tables)
    (temporaryTableName : String) : String :=
  let columns :=
    if usingTemporaryTableStrategy then
      String.intercalate ", " ((getTemporaryTableColumns tables).map quoteIdent)
    else
      String.intercalate ", " ((getAllDefinedColumns tables).map fun c => quoteIdent c.databaseColumn)
  let table :=
    if usingTemporaryTableStrategy then temporaryTableName
    else (getAllDefinedTables tables).getD 0 "undefined"
  "COPY \"" ++ table ++ "\"(" ++ columns ++ ") FROM STDIN (FORMAT CSV)"

/-- Spec-side form of the wire copy command of spec section 6:
`COPY "<target>"(<col1>, <col2>, ...) FROM STDIN (FORMAT CSV)` with an
explicit target and column list. -/
def copyCommand (target : String) (columns : List String) : String :=
  "COPY \"" ++ target ++ "\"(" ++ String.intercalate ", " columns ++ ") FROM STDIN (FORMAT CSV)"

/-- `canUseTemporaryTableStrategy` (pgbulk.ts lines 535-543): more than
one table, or some column with a truthy `castType` or `unnest`. -/
def canUseTemporaryTableStrategy (tables : Tables) : Bool :=
  decide ((getAllDefinedTables tables).length > 1) ||
    (tables.map Prod.snd).any fun columns =>
      columns.any fun column => jsTruthyStr column.castType || column.unnest

/-- The strategy decision of the constructor (pgbulk.ts lines 126-127):
`config.useTemporaryTableStrategy || this.canUseTemporaryTableStrategy()`. -/
def usingTemporaryTableStrategy (useTemporaryTableStrategy : Bool) (tables : Tables) : Bool :=
  useTemporaryTableStrategy || canUseTemporaryTableStrategy tables

/-- Spec-side strategy formula (spec section 4.1): `usingStaging =
forceStaging OR (tableCount > 1) OR (any column has expand or castType)`,
reading presence of the optional `castType` string through JS truthiness
as the source does. -/
def usingStagingSpec (forceStaging : Bool) (tables : Tables) : Bool :=
  forceStaging || decide (tables.length > 1) ||
    tables.any fun tc => tc.2.any fun c => c.unnest || jsTruthyStr c.castType

/-- JS object property access `this.config.tables[tableName]`. -/
def lookupTable (tables : Tables) (tableName : String) : Option (List ColumnSpec) :=
  (tables.find? fun tc => tc.1 == tableName).map Prod.snd

/-- One projection item of `pushToTable` (pgbulk.ts lines 290-298):
optional `unnest(...)` wrapping, optional `::castType` cast (JS-truthy
`castType`), and the `AS "databaseColumn"` alias. -/
def selectItem (tableName : String) (c : ColumnSpec) : String :=
  let cast :=
    match c.castType with
    | some s => if s == "" then "" else "::" ++ s
    | none => ""
  let tempRow := "\"" ++ tableName ++ "_" ++ c.databaseColumn ++ "\""
  (if c.unnest then "unnest(" ++ tempRow ++ ")" else tempRow) ++ cast ++
    " AS \"" ++ c.databaseColumn ++ "\""

/-- The `selects` array of `pushToTable` (pgbulk.ts lines 287-300): one
joined projection string per defined table, built by property lookup. -/
def pushSelects (tables : Tables) : List String :=
  (getAllDefinedTables tables).map fun tableName =>
    String.intercalate ", " (((lookupTable tables tableName).getD []).map (selectItem tableName))

/-- The single batched merge statement of `pushToTable` (pgbulk.ts lines
302-309): per-table `INSERT INTO ... SELECT selects[index] FROM staging ON
CONFLICT DO NOTHING;` joined with spaces and executed as one query. -/
def pushToTableQuery (tables : Tables) (temporaryTableName : String) : String :=
  String.intercalate " "
    (((getAllDefinedTables tables).enum).map fun p =>
      "INSERT INTO \"" ++ p.2 ++ "\" SELECT " ++ (pushSelects tables).getD p.1 "" ++
        " FROM \"" ++ temporaryTableName ++ "\" ON CONFLICT DO NOTHING;")

/-- Spec-side form of the merge step (spec sections 4.6 step 7 and 6): for
each destination table in declared order, one
`INSERT INTO "<table>" SELECT <projection> FROM "<staging>" ON CONFLICT DO
NOTHING;` statement over that table's own column list, all statements
batched into one multi-statement string. -/
def pushToTableQuerySpec (tables : Tables) (stagingName : String) : String :=
  String.intercalate " "
    (tables.map fun tc =>
      "INSERT INTO \"" ++ tc.1 ++ "\" SELECT " ++
        String.intercalate ", " (tc.2.map (selectItem tc.1)) ++
        " FROM \"" ++ stagingName ++ "\" ON CONFLICT DO NOTHING;")

/-- `checkIfIndexesMatches` (pgbulk.ts lines 459-480).  The fresh catalog
listing per table is an oracle argument.  Note the source consults
`this.config.allowDisableForeignKeys` (not `allowDisableIndexes`) to
decide whether to re-list the indexes. -/
def checkIfIndexesMatches (allowDisableForeignKeys : Bool)
    (definedTables : List String) (listing : String → List Index)
    (indexes : List Index) : Except String Unit :=
  let foundIndexes : List String :=
    if allowDisableForeignKeys then
      definedTables.flatMap fun t => (listing t).map fun i => i.name ++ "_" ++ i.definition
    else []
  if (indexes.map fun i => i.name ++ "_" ++ i.definition).all
      (fun key => foundIndexes.contains key) then
    Except.ok ()
  else Except.error "Indexes does not match. Rolled back"

/-- A database client action issued by `start`. -/
inductive DBAction where
  | connect : DBAction
  | query : String → DBAction
deriving DecidableEq, Repr

/-- Outcome of the opening phase of `start`: either it threw (with the
client actions performed before the throw) or it proceeded into the
transaction (with the actions performed so far). -/
inductive StartResult where
  | failed : List DBAction → String → StartResult
  | proceeding : List DBAction → StartResult
deriving DecidableEq, Repr

/-- The opening of `start()` (pgbulk.ts lines 151-156): the no-files
guard throws before `pool.connect()` and before `BEGIN`; otherwise the
run connects and begins the transaction.  This is the only validation
performed before transaction work; later steps of `start` are not
modelled here. -/
def startUpToBegin (files : List String) : StartResult :=
  if files.length = 0 then .failed [] "No files registred."
  else .proceeding [DBAction.connect, DBAction.query "BEGIN"]

/-- Concrete configuration exhibiting a staging-key collision: table `a`
with destination column `b_x` and table `a_b` with destination column `x`
both stage into the concatenated key `a_b_x`. -/
def collisionTables : Tables :=
  [("a", [{ databaseColumn := "b_x", type := "T", ref := some "r" },
          { databaseColumn := "r", type := "T" }]),
   ("a_b", [{ databaseColumn := "x", type := "T", ref := some "s" },
            { databaseColumn := "s", type := "T" }])]

/-- A source row for `collisionTables` with distinct values under the two
referenced source keys. -/
def collisionRow : List (String × Nat) := [("r", 1), ("s", 2)]

/-- Concrete configuration whose first column references the name `nope`,
which no configured column resolves. -/
def unresolvedRefTables : Tables :=
  [("t", [{ databaseColumn := "a", type := "TEXT", ref := some "nope" },
          { databaseColumn := "b", type := "TEXT" }])]

end PgBulk
namespace PgBulk

theorem getEntry_setEntry_self (rec : List (String × Option α)) (k : String) (v : Option α) :
    getEntry (setEntry rec k v) k = some v := by
  unfold setEntry getEntry
  by_cases hany : (rec.any fun p => p.1 == k) = true
  · rw [if_pos hany, List.find?_map]
    have hpred : ((fun p : String × Option α => p.1 == k) ∘
        fun p => if p.1 == k then (k, v) else p) = fun p => p.1 == k := by
      funext p
      by_cases h : p.1 == k
      · simp [Function.comp, h, beq_iff_eq.mp h]
      · simp [Function.comp, h]
    rw [hpred]
    have hs : (rec.find? fun p : String × Option α => p.1 == k).isSome = true :=
      List.find?_isSome.mpr (by simpa using List.any_eq_true.mp hany)
    rcases Option.isSome_iff_exists.mp hs with ⟨e, he⟩
    have hek := List.find?_some he
    simp only at hek
    rw [he]
    simp [beq_iff_eq.mp hek]
  · rw [if_neg hany, List.find?_append]
    have hnone : (rec.find? fun p : String × Option α => p.1 == k) = none := by
      rw [List.find?_eq_none]
      intro x hx hpx
      exact hany (List.any_eq_true.mpr ⟨x, hx, hpx⟩)
    rw [hnone, Option.none_or]
    simp [List.find?]

theorem getEntry_setEntry_ne (rec : List (String × Option α)) (k k' : String) (v : Option α)
    (h : k' ≠ k) : getEntry (setEntry rec k v) k' = getEntry rec k' := by
  unfold setEntry getEntry
  by_cases hany : (rec.any fun p => p.1 == k) = true
  · rw [if_pos hany, List.find?_map]
    have hpred : ((fun p : String × Option α => p.1 == k') ∘
        fun p => if p.1 == k then (k, v) else p) = fun p => p.1 == k' := by
      funext p
      by_cases hp : p.1 == k
      · simp [Function.comp, hp, beq_iff_eq.mp hp]
      · simp [Function.comp, hp]
    rw [hpred]
    cases hfind : rec.find? fun p : String × Option α => p.1 == k' with
    | none => rfl
    | some e =>
      have he := List.find?_some hfind
      simp only at he
      have hek : ¬e.1 = k := by
        rw [beq_iff_eq] at he
        rw [he]
        exact h
      simp [hek]
  · rw [if_neg hany, List.find?_append]
    have h2 : List.find? (fun p : String × Option α => p.1 == k') [(k, v)] = none := by
      simp [List.find?, beq_eq_false_iff_ne.mpr (Ne.symm h)]
    rw [h2, Option.or_none]

theorem fst_of_mem_setEntry (rec : List (String × Option α)) (k : String) (v : Option α)
    (kv : String × Option α) (h : kv ∈ setEntry rec k v) : kv.1 = k ∨ kv ∈ rec := by
  unfold setEntry at h
  by_cases hany : (rec.any fun p => p.1 == k) = true
  · rw [if_pos hany] at h
    rcases List.mem_map.mp h with ⟨p, hp, hpe⟩
    by_cases hpk : p.1 == k
    · left
      rw [← hpe]
      simp [hpk]
    · right
      rw [← hpe]
      simpa [hpk] using hp
  · rw [if_neg hany] at h
    rcases List.mem_append.mp h with h1 | h1
    · right; exact h1
    · left
      rcases List.mem_singleton.mp h1 with rfl
      rfl

theorem rowGet_cons_ne (row : List (String × α)) (k k' : String) (v : α) (h : k' ≠ k) :
    rowGet ((k, v) :: row) k' = rowGet row k' := by
  unfold rowGet
  rw [List.find?_cons_of_neg]
  simp [beq_eq_false_iff_ne.mpr (Ne.symm h)]

theorem find?_first_match {p : ColumnSpec → Bool} (pre post : List ColumnSpec)
    (a : ColumnSpec) (hpre : ∀ c ∈ pre, p c = false) (ha : p a = true) :
    (pre ++ a :: post).find? p = some a := by
  induction pre with
  | nil => simpa using List.find?_cons_of_pos post ha
  | cons c cs ih =>
    rw [List.cons_append, List.find?_cons_of_neg]
    · exact ih fun x hx => hpre x (List.mem_cons_of_mem c hx)
    · simp [hpre c (List.mem_cons_self c cs)]

theorem findSome?_append_of_none {f : String × List ColumnSpec → Option (String × ColumnSpec)}
    (pre rest : Tables) (hpre : ∀ tc ∈ pre, f tc = none) :
    (pre ++ rest).findSome? f = rest.findSome? f := by
  induction pre with
  | nil => simp
  | cons tc tcs ih =>
    rw [List.cons_append, List.findSome?_cons, hpre tc (List.mem_cons_self tc tcs)]
    exact ih fun x hx => hpre x (List.mem_cons_of_mem tc hx)

end PgBulk
namespace PgBulk

theorem refLoop_cons_skip {all : List (String × ColumnSpec)} {row : List (String × α)}
    {h : String × ColumnSpec} {rest : List (String × ColumnSpec)}
    {acc : List (String × Option α)} (htr : h.2.ref = none) :
    refLoop all row (h :: rest) acc = refLoop all row rest acc := by
  simp [refLoop, htr]

theorem refLoop_cons_unresolved {all : List (String × ColumnSpec)} {row : List (String × α)}
    {h : String × ColumnSpec} {rest : List (String × ColumnSpec)}
    {acc : List (String × Option α)} {r : String} (htr : h.2.ref = some r)
    (hres : resolveRef all r = none) :
    refLoop all row (h :: rest) acc = none := by
  simp [refLoop, htr, hres]

theorem refLoop_cons_resolved {all : List (String × ColumnSpec)} {row : List (String × α)}
    {h : String × ColumnSpec} {rest : List (String × ColumnSpec)}
    {acc : List (String × Option α)} {r : String} {rc : String × ColumnSpec}
    (htr : h.2.ref = some r) (hres : resolveRef all r = some rc) :
    refLoop all row (h :: rest) acc =
      refLoop all row rest
        (setEntry acc (stagingKey h.1 h.2.databaseColumn) (rowGet row (effKey rc.2))) := by
  simp [refLoop, htr, hres]

theorem firstTableMatch_mem {tables : Tables} {key : String} {tc : String × ColumnSpec}
    (h : firstTableMatch tables key = some tc) :
    tc ∈ allColumns tables ∧ matchesKey tc.2 key = true := by
  unfold firstTableMatch at h
  rcases List.exists_of_findSome?_eq_some h with ⟨a, ha, hfa⟩
  cases hfind : a.2.find? fun col => matchesKey col key with
  | none => rw [hfind] at hfa; simp at hfa
  | some c =>
    rw [hfind] at hfa
    simp only [Option.map_some'] at hfa
    obtain rfl : (a.1, c) = tc := by simpa using hfa
    refine ⟨List.mem_flatMap.mpr ⟨a, ha, List.mem_map.mpr ⟨c, List.mem_of_find?_eq_some hfind, rfl⟩⟩, ?_⟩
    exact @List.find?_some _ (fun col => matchesKey col key) c a.2 hfind

theorem firstTableMatch_none {tables : Tables} {key : String}
    (h : firstTableMatch tables key = none) :
    ∀ tc ∈ allColumns tables, matchesKey tc.2 key = false := by
  unfold firstTableMatch at h
  intro tc htc
  rcases List.mem_flatMap.mp htc with ⟨a, ha, hmem⟩
  rcases List.mem_map.mp hmem with ⟨c, hc, hce⟩
  have hfa := List.findSome?_eq_none_iff.mp h a ha
  rw [Option.map_eq_none'] at hfa
  have := List.find?_eq_none.mp hfa c hc
  rw [← hce]
  simpa using this

theorem resolveRef_some {all : List (String × ColumnSpec)} {r : String}
    {rc : String × ColumnSpec} (h : resolveRef all r = some rc) :
    rc ∈ all ∧ matchesKey rc.2 r = true := by
  refine ⟨List.mem_of_find?_eq_some h, ?_⟩
  exact @List.find?_some _ (fun tc : String × ColumnSpec => matchesKey tc.2 r) rc all h

theorem effKey_of_matches {c : ColumnSpec} {r : String} (hr : r ≠ "")
    (h : matchesKey c r = true) : effKey c = r := by
  unfold matchesKey at h
  rcases Bool.or_eq_true_iff.mp h with h1 | h1
  · have hc : c.csvColumn = some r := by simpa using h1
    unfold effKey
    rw [hc]
    simp [beq_eq_false_iff_ne.mpr hr]
  · rcases Bool.and_eq_true_iff.mp h1 with ⟨h2, h3⟩
    have hn : c.csvColumn = none := by simpa using h2
    have hd : c.databaseColumn = r := by simpa using h3
    unfold effKey
    rw [hn, hd]

theorem refLoop_unresolved {all : List (String × ColumnSpec)} {row : List (String × α)}
    {tc : String × ColumnSpec} {r : String} (htc : tc.2.ref = some r)
    (hres : resolveRef all r = none) :
    ∀ (l : List (String × ColumnSpec)) (acc : List (String × Option α)),
      tc ∈ l → refLoop all row l acc = none := by
  intro l
  induction l with
  | nil => intro acc h; exact absurd h (List.not_mem_nil tc)
  | cons h rest ih =>
    intro acc hmem
    rcases List.mem_cons.mp hmem with rfl | hmem'
    · exact refLoop_cons_unresolved htc hres
    · cases htr : h.2.ref with
      | none => rw [refLoop_cons_skip htr]; exact ih acc hmem'
      | some r' =>
        cases hres' : resolveRef all r' with
        | none => exact refLoop_cons_unresolved htr hres'
        | some rc => rw [refLoop_cons_resolved htr hres']; exact ih _ hmem'

theorem refLoop_no_write {all : List (String × ColumnSpec)} {row : List (String × α)}
    {K : String} :
    ∀ (l : List (String × ColumnSpec)) (acc rec : List (String × Option α)),
      (∀ tc ∈ l, stagingKey tc.1 tc.2.databaseColumn ≠ K) →
      refLoop all row l acc = some rec → getEntry rec K = getEntry acc K := by
  intro l
  induction l with
  | nil =>
    intro acc rec _ hloop
    obtain rfl : acc = rec := by simpa [refLoop] using hloop
    rfl
  | cons h rest ih =>
    intro acc rec hkeys hloop
    cases htr : h.2.ref with
    | none =>
      rw [refLoop_cons_skip htr] at hloop
      exact ih acc rec (fun tc htc => hkeys tc (List.mem_cons_of_mem h htc)) hloop
    | some r =>
      cases hres : resolveRef all r with
      | none =>
        rw [refLoop_cons_unresolved htr hres] at hloop
        exact absurd hloop (by simp)
      | some rc =>
        rw [refLoop_cons_resolved htr hres] at hloop
        have hstep := ih _ rec (fun tc htc => hkeys tc (List.mem_cons_of_mem h htc)) hloop
        rw [hstep,
          getEntry_setEntry_ne _ _ _ _ (Ne.symm (hkeys h (List.mem_cons_self h rest)))]

theorem refLoop_write_last {all : List (String × ColumnSpec)} {row : List (String × α)}
    {tc : String × ColumnSpec} {r : String} {rc : String × ColumnSpec}
    (htc : tc.2.ref = some r) (hres : resolveRef all r = some rc) :
    ∀ (l : List (String × ColumnSpec)) (acc rec : List (String × Option α)),
      tc ∈ l →
      (∀ tc' ∈ l, stagingKey tc'.1 tc'.2.databaseColumn = stagingKey tc.1 tc.2.databaseColumn →
        tc' = tc) →
      refLoop all row l acc = some rec →
      getEntry rec (stagingKey tc.1 tc.2.databaseColumn) = some (rowGet row (effKey rc.2)) := by
  intro l
  induction l with
  | nil => intro acc rec h _ _; exact absurd h (List.not_mem_nil tc)
  | cons h rest ih =>
    intro acc rec hmem huniq hloop
    by_cases hh : h = tc
    · subst hh
      rw [refLoop_cons_resolved htc hres] at hloop
      by_cases hmem' : h ∈ rest
      · exact ih _ rec hmem' (fun tc' htc' hk => huniq tc' (List.mem_cons_of_mem h htc') hk) hloop
      · have hnw : ∀ tc' ∈ rest, stagingKey tc'.1 tc'.2.databaseColumn ≠
            stagingKey h.1 h.2.databaseColumn := by
          intro tc' htc' hk
          exact hmem' (huniq tc' (List.mem_cons_of_mem h htc') hk ▸ htc')
        rw [refLoop_no_write rest _ rec hnw hloop, getEntry_setEntry_self]
    · have hmem' : tc ∈ rest := by
        rcases List.mem_cons.mp hmem with h1 | h1
        · exact absurd h1.symm hh
        · exact h1
      cases htr : h.2.ref with
      | none =>
        rw [refLoop_cons_skip htr] at hloop
        exact ih acc rec hmem' (fun tc' htc' hk => huniq tc' (List.mem_cons_of_mem h htc') hk) hloop
      | some r' =>
        cases hres' : resolveRef all r' with
        | none =>
          rw [refLoop_cons_unresolved htr hres'] at hloop
          exact absurd hloop (by simp)
        | some rc' =>
          rw [refLoop_cons_resolved htr hres'] at hloop
          exact ih _ rec hmem' (fun tc' htc' hk => huniq tc' (List.mem_cons_of_mem h htc') hk) hloop

end PgBulk
namespace PgBulk

theorem directPass_inv (tables : Tables) :
    ∀ (row : List (String × α)) (acc : List (String × Option α)),
      (∀ kv ∈ acc, ∃ tc ∈ allColumns tables, kv.1 = stagingKey tc.1 tc.2.databaseColumn) →
      ∀ kv ∈ List.foldl
        (fun acc kv =>
          match firstTableMatch tables kv.1 with
          | some tc => setEntry acc (stagingKey tc.1 tc.2.databaseColumn) (some kv.2)
          | none => acc)
        acc row,
        ∃ tc ∈ allColumns tables, kv.1 = stagingKey tc.1 tc.2.databaseColumn := by
  intro row
  induction row with
  | nil => intro acc hacc kv hkv; exact hacc kv hkv
  | cons e rest ih =>
    intro acc hacc kv hkv
    rw [List.foldl_cons] at hkv
    cases hm : firstTableMatch tables e.1 with
    | none =>
      rw [hm] at hkv
      exact ih acc hacc kv hkv
    | some tc0 =>
      rw [hm] at hkv
      refine ih _ ?_ kv hkv
      intro kv' hkv'
      rcases fst_of_mem_setEntry _ _ _ kv' hkv' with h1 | h1
      · exact ⟨tc0, (firstTableMatch_mem hm).1, h1⟩
      · exact hacc kv' h1

theorem directPass_keys (tables : Tables) (row : List (String × α)) :
    ∀ kv ∈ directPass tables row,
      ∃ tc ∈ allColumns tables, kv.1 = stagingKey tc.1 tc.2.databaseColumn :=
  directPass_inv tables row [] (fun kv hkv => absurd hkv (List.not_mem_nil kv))

theorem directPass_cons_nomatch {tables : Tables} {k : String} {v : α}
    {row : List (String × α)} (hm : firstTableMatch tables k = none) :
    directPass tables ((k, v) :: row) = directPass tables row := by
  unfold directPass
  rw [List.foldl_cons]
  simp [hm]

theorem refLoop_keys {all : List (String × ColumnSpec)} {row : List (String × α)} :
    ∀ (l : List (String × ColumnSpec)) (acc rec : List (String × Option α)),
      refLoop all row l acc = some rec →
      ∀ kv ∈ rec,
        (∃ tc ∈ l, kv.1 = stagingKey tc.1 tc.2.databaseColumn) ∨ kv ∈ acc := by
  intro l
  induction l with
  | nil =>
    intro acc rec hloop kv hkv
    obtain rfl : acc = rec := by simpa [refLoop] using hloop
    exact Or.inr hkv
  | cons h rest ih =>
    intro acc rec hloop kv hkv
    cases htr : h.2.ref with
    | none =>
      rw [refLoop_cons_skip htr] at hloop
      rcases ih acc rec hloop kv hkv with ⟨tc, htc, hk⟩ | hmem
      · exact Or.inl ⟨tc, List.mem_cons_of_mem h htc, hk⟩
      · exact Or.inr hmem
    | some r =>
      cases hres : resolveRef all r with
      | none =>
        rw [refLoop_cons_unresolved htr hres] at hloop
        exact absurd hloop (by simp)
      | some rc =>
        rw [refLoop_cons_resolved htr hres] at hloop
        rcases ih _ rec hloop kv hkv with ⟨tc, htc, hk⟩ | hmem
        · exact Or.inl ⟨tc, List.mem_cons_of_mem h htc, hk⟩
        · rcases fst_of_mem_setEntry _ _ _ kv hmem with h1 | h1
          · exact Or.inl ⟨h, List.mem_cons_self h rest, h1⟩
          · exact Or.inr h1

theorem jsTruthyStr_some {o : Option String} (h : jsTruthyStr o = true) :
    ∃ r, o = some r ∧ r ≠ "" := by
  cases o with
  | none => simp [jsTruthyStr] at h
  | some s =>
    refine ⟨s, rfl, ?_⟩
    simpa [jsTruthyStr, bne_iff_ne] using h

theorem refLoop_cons_row {tables : Tables} {k : String} {v : α} {row : List (String × α)}
    (hall : ∀ tc ∈ allColumns tables, matchesKey tc.2 k = false) :
    ∀ (l : List (String × ColumnSpec)) (acc : List (String × Option α)),
      (∀ tc ∈ l, jsTruthyStr tc.2.ref = true) →
      refLoop (allColumns tables) ((k, v) :: row) l acc =
        refLoop (allColumns tables) row l acc := by
  intro l
  induction l with
  | nil => intro acc _; rfl
  | cons h rest ih =>
    intro acc htruthy
    rcases jsTruthyStr_some (htruthy h (List.mem_cons_self h rest)) with ⟨r, htr, hr⟩
    cases hres : resolveRef (allColumns tables) r with
    | none =>
      rw [refLoop_cons_unresolved htr hres, refLoop_cons_unresolved htr hres]
    | some rc =>
      rcases resolveRef_some hres with ⟨hmem, hmatch⟩
      have hke : effKey rc.2 = r := effKey_of_matches hr hmatch
      have hkr : r ≠ k := by
        intro hkr
        rw [hkr] at hmatch
        rw [hall rc hmem] at hmatch
        exact Bool.false_ne_true hmatch
      rw [refLoop_cons_resolved htr hres, refLoop_cons_resolved htr hres, hke,
        rowGet_cons_ne row k r v hkr]
      exact ih _ fun tc htc => htruthy tc (List.mem_cons_of_mem h htc)

theorem getD_append_length {γ : Type _} (pre : List γ) (x : γ) (xs : List γ) (d : γ) :
    (pre ++ x :: xs).getD pre.length d = x := by
  induction pre with
  | nil => rfl
  | cons p ps ih => simpa using ih

theorem enum_getD_map {α β γ δ : Type _} (f : α → β) (h : α → γ) (g : β → γ → δ) (d : γ) :
    ∀ (l : List α) (pre : List γ),
      ((l.map f).enumFrom pre.length).map (fun p => g p.2 ((pre ++ l.map h).getD p.1 d)) =
        l.map fun a => g (f a) (h a) := by
  intro l
  induction l with
  | nil => intro pre; rfl
  | cons a l ih =>
    intro pre
    simp only [List.map_cons]
    have he : (f a :: l.map f).enumFrom pre.length =
        (pre.length, f a) :: (l.map f).enumFrom (pre.length + 1) := rfl
    rw [he, List.map_cons]
    refine congrArg₂ _ ?_ ?_
    · exact congrArg (g (f a)) (getD_append_length pre (h a) (l.map h) d)
    · have e1 : pre ++ h a :: l.map h = (pre ++ [h a]) ++ l.map h := by simp
      have e2 : pre.length + 1 = (pre ++ [h a]).length := by simp
      rw [e1, e2]
      exact ih (pre ++ [h a])

theorem enum_getD_flatMap {α β γ δ : Type _} (f : α → β) (h : α → γ) (m : β → γ → List δ)
    (d : γ) :
    ∀ (l : List α) (pre : List γ),
      ((l.map f).enumFrom pre.length).flatMap (fun p => m p.2 ((pre ++ l.map h).getD p.1 d)) =
        l.flatMap fun a => m (f a) (h a) := by
  intro l
  induction l with
  | nil => intro pre; rfl
  | cons a l ih =>
    intro pre
    simp only [List.map_cons]
    have he : (f a :: l.map f).enumFrom pre.length =
        (pre.length, f a) :: (l.map f).enumFrom (pre.length + 1) := rfl
    rw [he, List.flatMap_cons, List.flatMap_cons]
    refine congrArg₂ _ ?_ ?_
    · exact congrArg (m (f a)) (getD_append_length pre (h a) (l.map h) d)
    · have e1 : pre ++ h a :: l.map h = (pre ++ [h a]) ++ l.map h := by simp
      have e2 : pre.length + 1 = (pre ++ [h a]).length := by simp
      rw [e1, e2]
      exact ih (pre ++ [h a])

theorem getAllDefinedColumns_eq (tables : Tables) :
    getAllDefinedColumns tables =
      tables.flatMap fun tc => tc.2.map fun c => ⟨c.databaseColumn, c.type, tc.1⟩ := by
  have h := enum_getD_flatMap Prod.snd Prod.fst
    (fun cols t => cols.map fun c => DefinedColumn.mk c.databaseColumn c.type t) ""
    tables []
  simpa [getAllDefinedColumns, List.enum] using h

theorem getTemporaryTableColumns_eq (tables : Tables) :
    getTemporaryTableColumns tables =
      tables.flatMap fun tc => tc.2.map fun c => stagingKey tc.1 c.databaseColumn := by
  unfold getTemporaryTableColumns
  rw [getAllDefinedColumns_eq, List.map_flatMap]
  refine congrArg _ (funext fun tc => ?_)
  rw [List.map_map]
  rfl

theorem lookupTable_self :
    ∀ (tables : Tables), (tables.map Prod.fst).Nodup →
      ∀ tc ∈ tables, lookupTable tables tc.1 = some tc.2 := by
  intro tables
  induction tables with
  | nil => intro _ tc h; exact absurd h (List.not_mem_nil tc)
  | cons h rest ih =>
    intro hnd tc htc
    rw [List.map_cons, List.nodup_cons] at hnd
    rcases List.mem_cons.mp htc with rfl | hmem
    · unfold lookupTable
      rw [List.find?_cons_of_pos _ (by simp)]
      rfl
    · unfold lookupTable
      rw [List.find?_cons_of_neg]
      · exact ih hnd.2 tc hmem
      · intro heq
        exact hnd.1 (beq_iff_eq.mp heq ▸ List.mem_map.mpr ⟨tc, hmem, rfl⟩)

theorem pushSelects_eq {tables : Tables} (hnd : (tables.map Prod.fst).Nodup) :
    pushSelects tables =
      tables.map fun tc => String.intercalate ", " (tc.2.map (selectItem tc.1)) := by
  unfold pushSelects getAllDefinedTables
  rw [List.map_map]
  refine List.map_congr_left fun tc htc => ?_
  show String.intercalate ", " (((lookupTable tables tc.1).getD []).map (selectItem tc.1)) = _
  rw [lookupTable_self tables hnd tc htc]
  rfl

end PgBulk
namespace PgBulk

theorem colAny_comm (l : List ColumnSpec) :
    (l.any fun c => jsTruthyStr c.castType || c.unnest) =
      l.any fun c => c.unnest || jsTruthyStr c.castType := by
  induction l with
  | nil => rfl
  | cons a l ih =>
    simp only [List.any_cons]
    rw [ih, Bool.or_comm (jsTruthyStr a.castType) a.unnest]

theorem tablesAny_comm (tables : Tables) :
    ((tables.map Prod.snd).any fun columns =>
        columns.any fun column => jsTruthyStr column.castType || column.unnest) =
      tables.any fun tc => tc.2.any fun c => c.unnest || jsTruthyStr c.castType := by
  induction tables with
  | nil => rfl
  | cons h rest ih =>
    simp only [List.map_cons, List.any_cons]
    rw [ih, colAny_comm]

/-- C2: for every config, the strategy decision equals the pure formula
`forceStaging OR tableCount > 1 OR some column has a truthy expand/castType`
(spec section 4.1); in particular a single-table config without
expand/castType columns uses staging exactly when `forceStaging` is set,
and a config with two or more tables or an expand/castType column always
uses staging.  Presence of the optional `castType` string is read through
JS truthiness, exactly as `canUseTemporaryTableStrategy` does. -/
theorem c2_strategy_selector (forceStaging : Bool) (tables : Tables) :
    usingTemporaryTableStrategy forceStaging tables = usingStagingSpec forceStaging tables ∧
    (tables.length = 1 →
      (∀ tc ∈ tables, ∀ c ∈ tc.2, c.unnest = false ∧ jsTruthyStr c.castType = false) →
      usingTemporaryTableStrategy forceStaging tables = forceStaging) ∧
    (2 ≤ tables.length ∨
        (∃ tc ∈ tables, ∃ c ∈ tc.2, c.unnest = true ∨ jsTruthyStr c.castType = true) →
      usingTemporaryTableStrategy forceStaging tables = true) := by
  have hmain : usingTemporaryTableStrategy forceStaging tables =
      usingStagingSpec forceStaging tables := by
    unfold usingTemporaryTableStrategy canUseTemporaryTableStrategy usingStagingSpec
      getAllDefinedTables
    rw [tablesAny_comm]
    simp [List.length_map, Bool.or_assoc]
  refine ⟨hmain, ?_, ?_⟩
  · intro h1 h2
    have hany : (tables.any fun tc => tc.2.any fun c =>
        c.unnest || jsTruthyStr c.castType) = false := by
      rw [List.any_eq_false]
      intro tc htc
      rw [Bool.not_eq_true, List.any_eq_false]
      intro c hc
      rcases h2 tc htc c hc with ⟨hu, hcast⟩
      simp [hu, hcast]
    rw [hmain]
    unfold usingStagingSpec
    rw [hany, h1]
    simp
  · intro h
    rw [hmain]
    unfold usingStagingSpec
    rcases h with h1 | ⟨tc, htc, c, hc, hor⟩
    · have hd : decide (tables.length > 1) = true := decide_eq_true h1
      simp [hd]
    · have hany : (tables.any fun tc => tc.2.any fun c =>
          c.unnest || jsTruthyStr c.castType) = true := by
        rw [List.any_eq_true]
        refine ⟨tc, htc, ?_⟩
        rw [List.any_eq_true]
        refine ⟨c, hc, ?_⟩
        rcases hor with h2 | h2 <;> simp [h2]
      simp [hany]

/-- Witness for C2 at a concrete single-table config with no expand or
castType column and `forceStaging` unset: staging is not used. -/
theorem c2_strategy_selector_witness :
    usingTemporaryTableStrategy false
      [("addresses", [{ databaseColumn := "id", type := "TEXT" }])] = false :=
  (c2_strategy_selector false
    [("addresses", [{ databaseColumn := "id", type := "TEXT" }])]).2.1 rfl (by decide)

/-- C3: the direct pass maps a source key by scanning tables in declared
order; the first `ColumnSpec` whose `csvColumn` (or, absent that, its
`databaseColumn`) equals the key wins, yields exactly the single staging
entry `table_databaseColumn = value`, and no entry is written for any
later table (the tables after the match are arbitrary). -/
theorem c3_direct_pass_first_match {α : Type _} (pre post : Tables) (t : String)
    (cpre cpost : List ColumnSpec) (col : ColumnSpec) (k : String) (v : α)
    (hpre : ∀ tc ∈ pre, ∀ c ∈ tc.2, matchesKey c k = false)
    (hcpre : ∀ c ∈ cpre, matchesKey c k = false)
    (hcol : matchesKey col k = true) :
    firstTableMatch (pre ++ (t, cpre ++ col :: cpost) :: post) k = some (t, col) ∧
    directPass (pre ++ (t, cpre ++ col :: cpost) :: post) [(k, v)] =
      [(stagingKey t col.databaseColumn, some v)] := by
  have hfm : firstTableMatch (pre ++ (t, cpre ++ col :: cpost) :: post) k = some (t, col) := by
    unfold firstTableMatch
    rw [findSome?_append_of_none]
    · rw [List.findSome?_cons]
      rw [find?_first_match cpre cpost col hcpre hcol]
      rfl
    · intro tc htc
      rw [Option.map_eq_none', List.find?_eq_none]
      intro c hc
      simp [hpre tc htc c hc]
  refine ⟨hfm, ?_⟩
  unfold directPass
  rw [List.foldl_cons]
  simp only [hfm]
  rw [List.foldl_nil]
  simp [setEntry]

/-- Witness for C3: the key `id` skips a non-matching first table, matches
the second column of the second table, and the matching third table is
never written. -/
theorem c3_direct_pass_first_match_witness :
    firstTableMatch
      [("u", [{ databaseColumn := "zzz", type := "T" }]),
       ("v", [{ databaseColumn := "other", type := "T" },
              { databaseColumn := "id", type := "T" }]),
       ("w", [{ databaseColumn := "id", type := "T" }])] "id" =
      some ("v", { databaseColumn := "id", type := "T" }) ∧
    directPass
      [("u", [{ databaseColumn := "zzz", type := "T" }]),
       ("v", [{ databaseColumn := "other", type := "T" },
              { databaseColumn := "id", type := "T" }]),
       ("w", [{ databaseColumn := "id", type := "T" }])] [("id", (7 : Nat))] =
      [("v_id", some 7)] :=
  c3_direct_pass_first_match [("u", [{ databaseColumn := "zzz", type := "T" }])]
    [("w", [{ databaseColumn := "id", type := "T" }])] "v"
    [{ databaseColumn := "other", type := "T" }] [] { databaseColumn := "id", type := "T" }
    "id" 7 (by decide) (by decide) (by decide)

/-- C6: when some column carries a truthy `referencesColumn` that resolves
to no configured column, the transformer returns without emitting the row:
the whole record is dropped silently (result `none`, no error value
exists in the model because the source raises none). -/
theorem c6_unresolved_reference_drops_row {α : Type _} (tables : Tables)
    (row : List (String × α)) (tc : String × ColumnSpec) (r : String)
    (hmem : tc ∈ refColumns tables) (href : tc.2.ref = some r)
    (hres : resolveRef (allColumns tables) r = none) :
    transform tables row = none := by
  unfold transform
  exact refLoop_unresolved href hres (refColumns tables) _ hmem

/-- Witness for C6: a column referencing the unknown name `nope` drops a
row that would otherwise populate both columns. -/
theorem c6_unresolved_reference_drops_row_witness :
    transform
      [("t", [{ databaseColumn := "a", type := "TEXT", ref := some "nope" },
              { databaseColumn := "b", type := "TEXT" }])]
      [("a", (1 : Nat)), ("b", 2)] = none :=
  c6_unresolved_reference_drops_row
    [("t", [{ databaseColumn := "a", type := "TEXT", ref := some "nope" },
            { databaseColumn := "b", type := "TEXT" }])]
    [("a", 1), ("b", 2)]
    ("t", { databaseColumn := "a", type := "TEXT", ref := some "nope" }) "nope"
    (by decide) rfl (by decide)

/-- C9: with zero registered files, `start` throws the configuration error
`No files registred.` as its first statement: no connection is acquired,
no `BEGIN` is issued, no statement of any kind is performed. -/
theorem c9_no_files_fails_before_any_db_state (files : List String)
    (h : files.length = 0) :
    startUpToBegin files = StartResult.failed [] "No files registred." := by
  unfold startUpToBegin
  rw [if_pos h]

/-- Witness for C9 at the empty file list. -/
theorem c9_no_files_fails_before_any_db_state_witness :
    startUpToBegin [] = StartResult.failed [] "No files registred." :=
  c9_no_files_fails_before_any_db_state [] rfl

/-- C10: every key of an emitted staging record is
`table_databaseColumn` for some configured column of that table, and a
source key matching no configured column contributes nothing: the
transformer output with the unmatched entry is identical to the output
without it, and no error is raised (the transformer has no error
outcome). -/
theorem c10_staging_keys_and_unmatched_keys_ignored {α : Type _} (tables : Tables) :
    (∀ (row : List (String × α)) (rec : List (String × Option α)),
      transform tables row = some rec →
      ∀ kv ∈ rec, ∃ tc ∈ allColumns tables, kv.1 = stagingKey tc.1 tc.2.databaseColumn) ∧
    (∀ (k : String) (v : α) (row : List (String × α)),
      firstTableMatch tables k = none →
      transform tables ((k, v) :: row) = transform tables row) := by
  constructor
  · intro row rec htr kv hkv
    unfold transform at htr
    rcases refLoop_keys (refColumns tables) _ rec htr kv hkv with ⟨tc, htc, hk⟩ | hmem
    · exact ⟨tc, List.mem_of_mem_filter htc, hk⟩
    · exact directPass_keys tables row kv hmem
  · intro k v row hm
    unfold transform
    rw [directPass_cons_nomatch hm]
    exact refLoop_cons_row (firstTableMatch_none hm) (refColumns tables) _
      (fun tc htc =>
        @List.of_mem_filter _ (fun tc : String × ColumnSpec => jsTruthyStr tc.2.ref)
          tc (allColumns tables) htc)

/-- Witness for C10: the source key `zz` matches no configured column, and
prepending it to a row leaves the transformer output unchanged. -/
theorem c10_staging_keys_and_unmatched_keys_ignored_witness :
    transform [("v", [{ databaseColumn := "id", type := "T" }])]
        [("zz", (5 : Nat)), ("id", 7)] =
      transform [("v", [{ databaseColumn := "id", type := "T" }])] [("id", 7)] :=
  (c10_staging_keys_and_unmatched_keys_ignored
    [("v", [{ databaseColumn := "id", type := "T" }])]).2 "zz" 5 [("id", 7)] (by decide)

/-- C1 (code bug): `checkIfIndexesMatches` decides whether to re-list the
indexes by consulting `allowDisableForeignKeys` instead of
`allowDisableIndexes` (pgbulk.ts line 462).  With `allowDisableIndexes`
set and `allowDisableForeignKeys` unset, the captured index is present
unchanged in the fresh listing, yet the comparison runs against an empty
listing and raises the integrity error; flipping the foreign-key flag
makes the very same listing succeed.  (Independently, `start` passes the
two verification closures themselves to `Promise.all` at lines 235-245
without invoking them, so in a real run neither check ever executes.) -/
theorem c1_verification_consults_wrong_flag :
    checkIfIndexesMatches false ["t"] (fun _ => [⟨"i1", "d1", "t"⟩]) [⟨"i1", "d1", "t"⟩] =
      Except.error "Indexes does not match. Rolled back" ∧
    checkIfIndexesMatches true ["t"] (fun _ => [⟨"i1", "d1", "t"⟩]) [⟨"i1", "d1", "t"⟩] =
      Except.ok () :=
  ⟨rfl, rfl⟩

end PgBulk
namespace PgBulk

/-- C4 (amended): for every source record and every truthy
`referencesColumn`-carrying ColumnSpec whose reference resolves, provided
no other reference-carrying ColumnSpec produces the same concatenated
staging key, the emitted staging record's value at
`table_databaseColumn` equals the value of the original source record at
the referenced column's effective source key (`csvColumn`, or
`databaseColumn` when `csvColumn` is falsy) — never the literal reference
name and never a value of the partially built staging record. -/
theorem c4_reference_value_from_source_row {α : Type _} (tables : Tables)
    (row : List (String × α)) (tc : String × ColumnSpec) (r : String)
    (rc : String × ColumnSpec) (rec : List (String × Option α))
    (hmem : tc ∈ refColumns tables) (href : tc.2.ref = some r)
    (hres : resolveRef (allColumns tables) r = some rc)
    (huniq : ∀ tc' ∈ refColumns tables,
      stagingKey tc'.1 tc'.2.databaseColumn = stagingKey tc.1 tc.2.databaseColumn → tc' = tc)
    (hemit : transform tables row = some rec) :
    getEntry rec (stagingKey tc.1 tc.2.databaseColumn) = some (rowGet row (effKey rc.2)) := by
  unfold transform at hemit
  exact refLoop_write_last href hres (refColumns tables) _ rec hmem huniq hemit

/-- Counterexample to C4 as stated: in `collisionTables` the column `b_x`
of table `a` carries the resolving reference `r` whose source value is
`1`, yet the emitted record holds `2` at the staging key `a_b_x`, because
the later reference write of table `a_b`, column `x` concatenates to the
same key and overwrites it. -/
theorem c4_counterexample :
    (("a", ({ databaseColumn := "b_x", type := "T", ref := some "r" } : ColumnSpec))
        ∈ refColumns collisionTables) ∧
    resolveRef (allColumns collisionTables) "r" =
      some ("a", { databaseColumn := "r", type := "T" }) ∧
    transform collisionTables collisionRow =
      some [("a_r", some 1), ("a_b_s", some 2), ("a_b_x", some 2)] ∧
    getEntry [("a_r", some (1 : Nat)), ("a_b_s", some 2), ("a_b_x", some 2)]
        (stagingKey "a" "b_x") ≠
      some (rowGet collisionRow
        (effKey ({ databaseColumn := "r", type := "T" } : ColumnSpec))) := by
  decide

/-- Witness for C4 (amended) at a collision-free config: the reference
column `a` of table `t` stages the source value found under `src`. -/
theorem c4_reference_value_from_source_row_witness :
    getEntry [("t_src", some (9 : Nat)), ("t_a", some 9)] (stagingKey "t" "a") =
      some (rowGet [("src", (9 : Nat))]
        (effKey ({ databaseColumn := "src", type := "T" } : ColumnSpec))) :=
  c4_reference_value_from_source_row
    [("t", [{ databaseColumn := "a", type := "T", ref := some "src" },
            { databaseColumn := "src", type := "T" }])]
    [("src", 9)]
    ("t", { databaseColumn := "a", type := "T", ref := some "src" }) "src"
    ("t", { databaseColumn := "src", type := "T" })
    [("t_src", some 9), ("t_a", some 9)]
    (by decide) rfl (by decide) (by decide) (by decide)

/-- C5 (amended/corrected): an unresolved `referencesColumn` raises no
configuration error before transaction work — the only pre-transaction
check in `start` is the registered-file count, so the run proceeds to
connect and `BEGIN` — and at transform time every processed row is
silently dropped instead. -/
theorem c5_unresolved_reference_not_validated {α : Type _} (tables : Tables)
    (row : List (String × α)) (files : List String) (tc : String × ColumnSpec) (r : String)
    (hmem : tc ∈ refColumns tables) (href : tc.2.ref = some r)
    (hres : resolveRef (allColumns tables) r = none) (hfiles : ¬files.length = 0) :
    startUpToBegin files =
      StartResult.proceeding [DBAction.connect, DBAction.query "BEGIN"] ∧
    transform tables row = none := by
  constructor
  · unfold startUpToBegin
    rw [if_neg hfiles]
  · unfold transform
    exact refLoop_unresolved href hres (refColumns tables) _ hmem

/-- Counterexample to C5 as stated: `unresolvedRefTables` contains a
column whose reference `nope` resolves to no configured column, yet with
a registered file the opening of `start` raises no configuration error
and proceeds into the transaction (`connect`, then `BEGIN`); the rows are
dropped at transform time instead. -/
theorem c5_counterexample :
    startUpToBegin ["data.csv"] =
      StartResult.proceeding [DBAction.connect, DBAction.query "BEGIN"] ∧
    (("t", ({ databaseColumn := "a", type := "TEXT", ref := some "nope" } : ColumnSpec))
        ∈ refColumns unresolvedRefTables) ∧
    resolveRef (allColumns unresolvedRefTables) "nope" = none ∧
    transform unresolvedRefTables [("a", (1 : Nat)), ("b", 2)] = none := by
  decide

/-- Witness for C5 (amended) at a concrete config, file list and row. -/
theorem c5_unresolved_reference_not_validated_witness :
    startUpToBegin ["other.csv"] =
      StartResult.proceeding [DBAction.connect, DBAction.query "BEGIN"] ∧
    transform unresolvedRefTables [("b", (7 : Nat))] = none :=
  c5_unresolved_reference_not_validated unresolvedRefTables [("b", 7)] ["other.csv"]
    ("t", { databaseColumn := "a", type := "TEXT", ref := some "nope" }) "nope"
    (by decide) rfl (by decide) (by decide)

/-- C7: under distinct table names (guaranteed for a JS object literal),
the batched merge built by `pushToTable` is exactly one
`INSERT INTO "table" SELECT projection FROM "staging" ON CONFLICT DO
NOTHING;` statement per destination table in declared order, joined into
a single multi-statement string (executed by one `client.query` call),
where each table's projection lists its columns in ColumnSpec order via
`selectItem` (optional `unnest(...)` wrap, optional `::castType` cast for
a truthy castType, `AS` alias). -/
theorem c7_merge_statements (tables : Tables) (temporaryTableName : String)
    (hnd : (tables.map Prod.fst).Nodup) :
    pushToTableQuery tables temporaryTableName =
      pushToTableQuerySpec tables temporaryTableName := by
  unfold pushToTableQuery pushToTableQuerySpec getAllDefinedTables
  rw [pushSelects_eq hnd]
  refine congrArg (String.intercalate " ") ?_
  have h := enum_getD_map Prod.fst
    (fun tc : String × List ColumnSpec => String.intercalate ", " (tc.2.map (selectItem tc.1)))
    (fun name sel => "INSERT INTO \"" ++ name ++ "\" SELECT " ++ sel ++
      " FROM \"" ++ temporaryTableName ++ "\" ON CONFLICT DO NOTHING;") "" tables []
  simpa [List.enum] using h

/-- Witness for C7 at a two-table config exercising `unnest` and
`castType`. -/
theorem c7_merge_statements_witness :
    pushToTableQuery
      [("users", [{ databaseColumn := "id", type := "TEXT" },
                  { databaseColumn := "tags", type := "TEXT[]", unnest := true,
                    castType := some "text" }]),
       ("addresses", [{ databaseColumn := "id", type := "TEXT" }])] "staging_pgbulk" =
      pushToTableQuerySpec
        [("users", [{ databaseColumn := "id", type := "TEXT" },
                    { databaseColumn := "tags", type := "TEXT[]", unnest := true,
                      castType := some "text" }]),
         ("addresses", [{ databaseColumn := "id", type := "TEXT" }])] "staging_pgbulk" :=
  c7_merge_statements
    [("users", [{ databaseColumn := "id", type := "TEXT" },
                { databaseColumn := "tags", type := "TEXT[]", unnest := true,
                  castType := some "text" }]),
     ("addresses", [{ databaseColumn := "id", type := "TEXT" }])] "staging_pgbulk" (by decide)

/-- C8: the copy command targets the staging table and lists exactly the
staging columns `table_databaseColumn` in declared order when using
staging — the same names in the same order as the `CREATE TEMPORARY
TABLE` DDL (whose column definitions are built from the identical
construction) and as the serializer column order, which the source passes
as `getTemporaryTableColumns()` verbatim — and, when not using staging,
the copy command targets the single defined table and lists its own
`databaseColumn` names in declared order; not using staging forces at
most one defined table. -/
theorem c8_copy_query (tables : Tables) (temporaryTableName t : String)
    (cols : List ColumnSpec) (forceStaging : Bool) (tbls : Tables) :
    getTemporaryTableColumns tables =
      (tables.flatMap fun tc => tc.2.map fun c => stagingKey tc.1 c.databaseColumn) ∧
    (createTemporaryTableColumns tables).map
        (fun c => stagingKey c.tableName c.databaseColumn) =
      getTemporaryTableColumns tables ∧
    buildCopyQuery true tables temporaryTableName =
      copyCommand temporaryTableName ((getTemporaryTableColumns tables).map quoteIdent) ∧
    buildCopyQuery false [(t, cols)] temporaryTableName =
      copyCommand t (cols.map fun c => quoteIdent c.databaseColumn) ∧
    (usingTemporaryTableStrategy forceStaging tbls = false → tbls.length ≤ 1) := by
  refine ⟨getTemporaryTableColumns_eq tables, rfl, rfl, ?_, ?_⟩
  · have hc : getAllDefinedColumns [(t, cols)] =
        cols.map fun c => ⟨c.databaseColumn, c.type, t⟩ := by
      rw [getAllDefinedColumns_eq]
      simp
    unfold buildCopyQuery copyCommand getAllDefinedTables
    rw [hc, List.map_map]
    rfl
  · intro h
    unfold usingTemporaryTableStrategy canUseTemporaryTableStrategy getAllDefinedTables at h
    rcases Bool.or_eq_false_iff.mp h with ⟨h1, h2⟩
    rcases Bool.or_eq_false_iff.mp h2 with ⟨h3, h4⟩
    rw [List.length_map] at h3
    exact Nat.not_lt.mp (decide_eq_false_iff_not.mp h3)

/-- Witness for C8 discharging the final hypothesis at a concrete
single-table config that does not use staging. -/
theorem c8_copy_query_witness :
    ([("t", [({ databaseColumn := "a", type := "T" } : ColumnSpec)])] : Tables).length ≤ 1 :=
  (c8_copy_query [] "s" "t" [] false
    [("t", [{ databaseColumn := "a", type := "T" }])]).2.2.2.2 (by decide)

end PgBulk
